import Mathlib

/-!
Shallow embedding of the German-real-estate-scraper pipeline
(`scraper_with_concur.py`, `scraper_with_concur_and_price.py`):
listing discovery, the per-item download worker `save_html` with its
retry loop and file cache, the outcome log, and the thread-pool
scheduler `download_with_eta`.

Network and filesystem effects are made explicit:
* the fetch layer is an oracle `fetch : id → attempt → FetchResult`;
* the HTML cache directory is an association list `id ↦ document`;
* the outcome log is the list of appended lines;
* the scheduler is the list of submitted tasks (one per catalog entry,
  exactly as the `executor.submit` dict comprehension produces them)
  together with the state reached after all tasks complete.
-/

namespace Scraper

/-- Result of one HTTP GET for a detail page: the body on success, or the
exception message on a `requests.RequestException`. -/
inductive FetchResult where
  | ok (body : String)
  | err (msg : String)
deriving DecidableEq

def FetchResult.isOk : FetchResult → Bool
  | .ok _ => true
  | .err _ => false

/-- How the `os.makedirs`/`open`/`f.write` sequence behaves for one id:
it either succeeds, or raises before `open` has created the file (for
example permission denied on the directory), or raises after
`open(file_path, "w")` has already created/truncated the file with only
the first `written` characters flushed (for example disk full mid-write).
In the last case the partial file stays on disk, and `os.path.exists`
treats it as a cached document from then on. -/
inductive StoreBehavior where
  | ok
  | failBeforeOpen (msg : String)
  | failDuringWrite (msg : String) (written : Nat)
deriving DecidableEq

/-- The first `n` characters of a string: the prefix of the fetched body
that reached the disk when the write fails mid-way. -/
def takeChars (s : String) (n : Nat) : String := ⟨s.data.take n⟩

/-- The environment a run executes in: the network oracle (per id, per
attempt number), the storage oracle (per id, how the write sequence
behaves), and the jitter drawn by `random.uniform(0, 1)` before each
backoff sleep. -/
structure FetchEnv where
  fetch : String → Nat → FetchResult
  storeErr : String → StoreBehavior
  jitter : String → Nat → ℚ

/-- The cache directory: each saved `{id}.html` file with its content. -/
abbrev Cache := List (String × String)

/-- File-existence / content lookup in the cache directory. -/
def lookupDoc : Cache → String → Option String
  | [], _ => none
  | (k, v) :: rest, x => if x = k then some v else lookupDoc rest x

/-- Status of one item in one run. -/
inductive Status where
  | success
  | skipped
  | failed
deriving DecidableEq

/-- One `FetchOutcome`: the item, how it ended, and the message carried. -/
structure Outcome where
  id : String
  status : Status
  message : String
deriving DecidableEq

/-- `log_result`: the single line appended to `download_log.txt`,
`f"{status}: {object_id} {message}"`. -/
def log_result (object_id : String) (success : Bool) (message : String) : String :=
  (if success then "SUCCESS" else "ERROR") ++ ": " ++ object_id ++ " " ++ message

/-- The retry loop `for attempt in range(5)` of `save_html`, run over the
remaining attempt numbers: returns the first successful body (if any), the
number of GET calls actually made, and the backoff sleeps
`2 ** attempt + random.uniform(0, 1)` performed after failed attempts. -/
def runRetries (f : Nat → FetchResult) (j : Nat → ℚ) :
    List Nat → Option String × Nat × List ℚ
  | [] => (none, 0, [])
  | a :: rest =>
    match f a with
    | .ok b => (some b, 1, [])
    | .err _ =>
      let r := runRetries f j rest
      (r.1, r.2.1 + 1, ((2 : ℚ) ^ a + j a) :: r.2.2)

/-- Everything one `save_html` call produces: its return string, the cache
directory afterwards, the log lines it appended, the outcome it reports,
the number of network calls made, and the backoff sleeps performed. -/
structure SaveResult where
  ret : String
  cache : Cache
  log : List String
  outcome : Outcome
  fetchCalls : Nat
  sleeps : List ℚ

/-- `save_html(object_id)`: skip if the file exists; otherwise run the
5-attempt retry loop; on exhaustion log `ERROR ... Failed after retries`;
on a successful fetch write the file and log `SUCCESS`. The storage layer
may raise, which the outer `except` turns into an `ERROR` log line; if it
raises after `open` created the file, the partial file remains cached. -/
def save_html (env : FetchEnv) (cache : Cache) (object_id : String) : SaveResult :=
  if (lookupDoc cache object_id).isSome then
    ⟨"Already saved: " ++ object_id, cache, [],
      ⟨object_id, .skipped, ""⟩, 0, []⟩
  else
    match runRetries (env.fetch object_id) (env.jitter object_id) (List.range 5) with
    | (none, n, sl) =>
      ⟨"Failed after retries: " ++ object_id, cache,
        [log_result object_id false "Failed after retries"],
        ⟨object_id, .failed, "Failed after retries"⟩, n, sl⟩
    | (some body, n, sl) =>
      match env.storeErr object_id with
      | .ok =>
        ⟨"Saved: " ++ object_id, (object_id, body) :: cache,
          [log_result object_id true ""],
          ⟨object_id, .success, ""⟩, n, sl⟩
      | .failBeforeOpen e =>
        ⟨"Crash at ID " ++ object_id ++ ": " ++ e, cache,
          [log_result object_id false e],
          ⟨object_id, .failed, e⟩, n, sl⟩
      | .failDuringWrite e w =>
        ⟨"Crash at ID " ++ object_id ++ ": " ++ e,
          (object_id, takeChars body w) :: cache,
          [log_result object_id false e],
          ⟨object_id, .failed, e⟩, n, sl⟩

/-- Scheduler state accumulated while completions are processed: the cache
directory, the appended log lines, the reported outcomes (in completion
order) and, per completed task, the number of network calls it made. -/
structure RunState where
  cache : Cache
  log : List String
  outcomes : List Outcome
  calls : List (String × Nat)
deriving DecidableEq

/-- One completed task of the pool: run `save_html` against the current
cache and record its log lines, outcome and call count. -/
def stepTask (env : FetchEnv) (st : RunState) (object_id : String) : RunState :=
  let r := save_html env st.cache object_id
  ⟨r.cache, st.log ++ r.log, st.outcomes ++ [r.outcome],
    st.calls ++ [(object_id, r.fetchCalls)]⟩

/-- Execute the submitted tasks in completion order. -/
def runTasks (env : FetchEnv) : List String → RunState → RunState
  | [], st => st
  | t :: ts, st => runTasks env ts (stepTask env st t)

/-- A whole scheduler run: the ids submitted to the worker pool (one per
catalog entry, from the `executor.submit` comprehension) and the final
state after every future has completed. -/
structure SchedRun where
  tasks : List String
  state : RunState

/-- `download_with_eta(object_ids, ...)` of `scraper_with_concur.py`:
every id in `object_ids` is submitted to the pool; the skip check happens
only inside `save_html` once the task runs. -/
def download_with_eta (env : FetchEnv) (cache : Cache) (object_ids : List String) :
    SchedRun :=
  ⟨object_ids, runTasks env object_ids ⟨cache, [], [], []⟩⟩

/-! ## Listing discovery, id-only variant (`scraper_with_concur.py`) -/

/-- A listing page fetch: either an exception, or the list of
`a.objectLink` anchors, each with its optional `data-objectid` attribute. -/
abbrev PageResult := Except String (List (Option String))

/-- `object_ids.add(object_id)`: the `set` is modelled as a list without
duplicates, so adding an element already present changes nothing. -/
def insertId (oid : String) (s : List String) : List String :=
  if oid ∈ s then s else oid :: s

/-- The inner anchor loop: add every present `data-objectid` to the set. -/
def addAnchors (acc : List String) (anchors : List (Option String)) : List String :=
  anchors.foldl
    (fun a t => match t with | some oid => insertId oid a | none => a) acc

/-- The body of the page loop of `scrape_property_links`: a failed page
is printed and skipped, a successful one contributes its ids. -/
def pageStep (pageResult : Nat → PageResult) (acc : List String) (p : Nat) : List String :=
  match pageResult p with
  | .error _ => acc
  | .ok anchors => addAnchors acc anchors

/-- Fold of `scrape_property_links` over the pages `1..pages`. -/
def discoveredIds (pageResult : Nat → PageResult) (pages : Nat) : List String :=
  (List.range' 1 pages).foldl (pageStep pageResult) []

/-- The string order Python's `sorted` uses: lexicographic comparison of
the character sequences (by code point). -/
def strLe (s t : String) : Prop := s.data ≤ t.data

instance : DecidableRel strLe :=
  fun s t => inferInstanceAs (Decidable (s.data ≤ t.data))

instance : IsTotal String strLe := ⟨fun s t => le_total s.data t.data⟩

instance : IsTrans String strLe := ⟨fun _ _ _ h1 h2 => le_trans h1 h2⟩

instance : IsAntisymm String strLe :=
  ⟨fun _ _ h1 h2 => String.ext (le_antisymm h1 h2)⟩

/-- `scrape_property_links(pages)`: accumulate `object_ids` as a set over
all pages, then return `sorted(object_ids)`. -/
def scrape_property_links (pageResult : Nat → PageResult) (pages : Nat) : List String :=
  List.insertionSort strLe (discoveredIds pageResult pages)

/-! ## Listing discovery, price variant (`scraper_with_concur_and_price.py`) -/

def BASE_URL : String := "https://www.bestfewo.de/expose/"

/-- One `div.prices.objectInfos` container: its optional `data-objectid`
and the optional text of its `p.pricetag` child. -/
structure PriceAnchor where
  objectid : Option String
  pricetag : Option String
deriving DecidableEq

/-- One catalog entry of the price variant. -/
structure Listing where
  object_id : String
  link : String
  price : String
deriving DecidableEq

/-- Price clean-up: `"N/A"` when no tag, else
`text.replace("ab", "").replace("\xa0", "").strip()`. -/
def cleanPrice (tag : Option String) : String :=
  match tag with
  | none => "N/A"
  | some s => ((s.replace "ab" "").replace "\u00A0" "").trim

/-- The body of the container loop of the price variant: append one
listing dict when the container has a `data-objectid`. -/
def priceDivStep (a : List Listing) (d : PriceAnchor) : List Listing :=
  match d.objectid with
  | some oid => a ++ [⟨oid, BASE_URL ++ oid, cleanPrice d.pricetag⟩]
  | none => a

/-- The body of the page loop of the price variant. -/
def pricePageStep (pageResult : Nat → Except String (List PriceAnchor))
    (acc : List Listing) (p : Nat) : List Listing :=
  match pageResult p with
  | .error _ => acc
  | .ok divs => divs.foldl priceDivStep acc

/-- `scrape_property_links(pages)` of the price variant: append one
listing dict per container with a `data-objectid`; no deduplication. -/
def scrape_property_links_price
    (pageResult : Nat → Except String (List PriceAnchor)) (pages : Nat) :
    List Listing :=
  (List.range' 1 pages).foldl (pricePageStep pageResult) []

/-- The `data-objectid` values one listing page contributes, in document
order: none for a failed page, one per container carrying the attribute
for a successful page. -/
def pageOccIds (pageResult : Nat → Except String (List PriceAnchor)) (p : Nat) :
    List String :=
  match pageResult p with
  | .error _ => []
  | .ok divs => divs.filterMap PriceAnchor.objectid

/-- `download_with_eta(listings, ...)` of the price variant: one
`executor.submit(save_html, item["object_id"])` per element of
`listings` — duplicate ids in `listings` are each submitted. -/
def download_with_eta_price (env : FetchEnv) (cache : Cache) (listings : List Listing) :
    SchedRun :=
  ⟨listings.map Listing.object_id,
    runTasks env (listings.map Listing.object_id) ⟨cache, [], [], []⟩⟩


/-- Outcomes that produce a log line: `Success` and `Failed` do, a skip
returns before `log_result` is called. -/
def logsLine (o : Outcome) : Bool :=
  match o.status with
  | .skipped => false
  | _ => true

/-- Two environments behaving identically for every id other than `x`. -/
def envAgreeExcept (env env' : FetchEnv) (x : String) : Prop :=
  ∀ y, y ≠ x → env.fetch y = env'.fetch y ∧ env.storeErr y = env'.storeErr y

/-! ## Concrete example data used in the theorems below -/

/-- Environment in which the detail fetch for `B` succeeds at the first
attempt, every other fetch attempt raises `boom`, and storage works. -/
def envBC : FetchEnv :=
  ⟨fun id _ => if id = "B" then .ok "bodyB" else .err "boom",
   fun _ => .ok, fun _ _ => 0⟩

/-- Environment in which every fetch attempt raises `boom`. -/
def envErr : FetchEnv := ⟨fun _ _ => .err "boom", fun _ => .ok, fun _ _ => 0⟩

/-- Environment in which every fetch succeeds at the first attempt. -/
def envOk : FetchEnv := ⟨fun _ _ => .ok "page", fun _ => .ok, fun _ _ => 0⟩

/-- Environment in which every fetch succeeds with body `fullbody` but
every write runs out of disk space after 4 characters. -/
def envDiskFull : FetchEnv :=
  ⟨fun _ _ => .ok "fullbody",
   fun _ => .failDuringWrite "No space left on device" 4, fun _ _ => 0⟩

/-- Cache directory in which only `A` is already saved. -/
def cacheA : Cache := [("A", "docA")]

/-- Three listing pages; page 2 raises, pages 1 and 3 both mention `a1`. -/
def pagesA : Nat → PageResult := fun p =>
  if p = 1 then .ok [some "b1", none, some "a1"]
  else if p = 2 then .error "TransportError"
  else .ok [some "a1", some "c1"]

/-- Two listing pages yielding the same ids as `pagesA` in another order. -/
def pagesB : Nat → PageResult := fun p =>
  if p = 1 then .ok [some "c1", some "a1"]
  else .ok [some "b1"]

/-- Two price-variant listing pages that both mention object `X`, with
different prices. -/
def pricePages : Nat → Except String (List PriceAnchor) := fun p =>
  if p = 1 then .ok [⟨some "X", some "ab 100"⟩]
  else .ok [⟨some "X", some "ab 200"⟩]

/-- A price-variant catalog in which the same object id occurs twice. -/
def dupListings : List Listing :=
  [⟨"X", BASE_URL ++ "X", "100"⟩, ⟨"X", BASE_URL ++ "X", "200"⟩]

/-! ## Basic facts about `save_html` and the retry loop -/

theorem save_html_outcome_id (env : FetchEnv) (c : Cache) (t : String) :
    (save_html env c t).outcome.id = t := by
  unfold save_html
  split
  · rfl
  · split
    · rfl
    · split <;> rfl

theorem save_html_skip (env : FetchEnv) (c : Cache) (t : String)
    (h : (lookupDoc c t).isSome = true) :
    save_html env c t =
      ⟨"Already saved: " ++ t, c, [], ⟨t, .skipped, ""⟩, 0, []⟩ := by
  unfold save_html
  rw [if_pos h]

theorem save_html_cache_other (env : FetchEnv) (c : Cache) (t y : String)
    (hyt : y ≠ t) :
    lookupDoc (save_html env c t).cache y = lookupDoc c y := by
  unfold save_html
  split
  · rfl
  · split
    · rfl
    · split <;> simp [lookupDoc, hyt]

theorem save_html_preserves (env : FetchEnv) (c : Cache) (t x d : String)
    (h : lookupDoc c x = some d) :
    lookupDoc (save_html env c t).cache x = some d := by
  by_cases hxt : x = t
  · subst hxt
    rw [save_html_skip env c x (by simp [h])]
    exact h
  · rw [save_html_cache_other env c t x hxt]
    exact h

theorem runRetries_all_err (f : Nat → FetchResult) (j : Nat → ℚ) :
    ∀ l : List Nat, (∀ a ∈ l, (f a).isOk = false) →
      runRetries f j l = (none, l.length, l.map fun a => (2 : ℚ) ^ a + j a) := by
  intro l
  induction l with
  | nil => intro _; rfl
  | cons a rest ih =>
    intro h
    have ha := h a (by simp)
    unfold runRetries
    cases hfa : f a with
    | ok b => rw [hfa] at ha; simp [FetchResult.isOk] at ha
    | err m =>
      rw [ih (fun x hx => h x (by simp [hx]))]
      simp

theorem runRetries_ok (f : Nat → FetchResult) (j : Nat → ℚ) :
    ∀ (l : List Nat) (b : String) (n : Nat) (sl : List ℚ),
      runRetries f j l = (some b, n, sl) → ∃ k ∈ l, f k = .ok b := by
  intro l
  induction l with
  | nil => intro b n sl h; simp [runRetries] at h
  | cons a rest ih =>
    intro b n sl h
    unfold runRetries at h
    cases hfa : f a with
    | ok b' =>
      rw [hfa] at h
      simp at h
      exact ⟨a, by simp, by rw [hfa, h.1]⟩
    | err m =>
      rw [hfa] at h
      simp at h
      obtain ⟨k, hk, hfk⟩ := ih b (runRetries f j rest).2.1
        (runRetries f j rest).2.2 (by rw [← h.1])
      exact ⟨k, by simp [hk], hfk⟩

/-! ## Facts about full scheduler runs -/

theorem runTasks_cons (env : FetchEnv) (t : String) (ts : List String) (st : RunState) :
    runTasks env (t :: ts) st = runTasks env ts (stepTask env st t) := rfl

theorem runTasks_preserves (env : FetchEnv) (ts : List String) :
    ∀ (st : RunState) (x d : String), lookupDoc st.cache x = some d →
      lookupDoc (runTasks env ts st).cache x = some d := by
  induction ts with
  | nil => intro st x d h; exact h
  | cons t ts ih =>
    intro st x d h
    rw [runTasks_cons]
    exact ih _ x d (save_html_preserves env st.cache t x d h)

theorem runTasks_outcomes_mem (env : FetchEnv) (ts : List String) :
    ∀ (st : RunState) (o : Outcome), o ∈ st.outcomes →
      o ∈ (runTasks env ts st).outcomes := by
  induction ts with
  | nil => intro st o h; exact h
  | cons t ts ih =>
    intro st o h
    rw [runTasks_cons]
    exact ih _ o (by simp [stepTask, h])

theorem runTasks_calls_fst (env : FetchEnv) (ts : List String) :
    ∀ st : RunState,
      (runTasks env ts st).calls.map Prod.fst = st.calls.map Prod.fst ++ ts := by
  induction ts with
  | nil => intro st; simp [runTasks]
  | cons t ts ih =>
    intro st
    rw [runTasks_cons, ih]
    simp [stepTask]


theorem save_html_not_failed_cached (env : FetchEnv) (c : Cache) (t : String) :
    (save_html env c t).outcome.status ≠ .failed →
    ∃ d, lookupDoc (save_html env c t).cache t = some d := by
  unfold save_html
  split
  · next hc =>
      intro _
      exact Option.isSome_iff_exists.mp hc
  · split
    · intro h
      exact absurd rfl h
    · split
      · intro _
        simp [lookupDoc]
      · intro h
        exact absurd rfl h
      · intro h
        exact absurd rfl h

theorem runTasks_all_cached (env : FetchEnv) (ts : List String) :
    ∀ st : RunState, (∀ t ∈ ts, (lookupDoc st.cache t).isSome = true) →
      runTasks env ts st =
        ⟨st.cache, st.log,
          st.outcomes ++ ts.map (fun t => ⟨t, .skipped, ""⟩),
          st.calls ++ ts.map (fun t => (t, 0))⟩ := by
  induction ts with
  | nil => intro st _; simp [runTasks]
  | cons t ts ih =>
    intro st h
    rw [runTasks_cons]
    have hst : stepTask env st t =
        ⟨st.cache, st.log, st.outcomes ++ [⟨t, .skipped, ""⟩],
          st.calls ++ [(t, 0)]⟩ := by
      simp [stepTask, save_html_skip env st.cache t (h t (by simp))]
    rw [hst]
    have hrec := ih ⟨st.cache, st.log,
        st.outcomes ++ [(⟨t, Status.skipped, ""⟩ : Outcome)],
        st.calls ++ [(t, 0)]⟩ (fun u hu => h u (by simp [hu]))
    rw [hrec]
    simp

theorem runTasks_no_failed_cached (env : FetchEnv) (ts : List String) :
    ∀ st : RunState,
      (∀ o ∈ (runTasks env ts st).outcomes, o.status ≠ .failed) →
      ∀ t ∈ ts, (lookupDoc (runTasks env ts st).cache t).isSome = true := by
  induction ts with
  | nil => intro st _ t ht; simp at ht
  | cons u ts ih =>
    intro st h t ht
    rw [runTasks_cons] at h ⊢
    rcases List.mem_cons.mp ht with rfl | ht'
    · have hmem : (save_html env st.cache t).outcome ∈
          (runTasks env ts (stepTask env st t)).outcomes :=
        runTasks_outcomes_mem env ts _ _ (by simp [stepTask])
      obtain ⟨d, hd⟩ := save_html_not_failed_cached env st.cache t (h _ hmem)
      have : lookupDoc (runTasks env ts (stepTask env st t)).cache t = some d :=
        runTasks_preserves env ts _ t d (by simpa [stepTask] using hd)
      simp [this]
    · exact ih _ h t ht'

theorem runTasks_cached_skip (env : FetchEnv) (ts : List String) :
    ∀ (st : RunState) (x d : String), lookupDoc st.cache x = some d →
      (∀ o ∈ st.outcomes, o.id = x → o.status = .skipped) →
      (∀ p ∈ st.calls, p.1 = x → p.2 = 0) →
      (∀ o ∈ (runTasks env ts st).outcomes, o.id = x → o.status = .skipped) ∧
      (∀ p ∈ (runTasks env ts st).calls, p.1 = x → p.2 = 0) := by
  induction ts with
  | nil => intro st x d h1 h2 h3; exact ⟨h2, h3⟩
  | cons t ts ih =>
    intro st x d h1 h2 h3
    rw [runTasks_cons]
    by_cases hxt : t = x
    · subst hxt
      have hsk := save_html_skip env st.cache t (by simp [h1])
      apply ih _ t d
      · simpa [stepTask, hsk] using h1
      · intro o ho hid
        have ho' : o ∈ st.outcomes ∨ o = (⟨t, Status.skipped, ""⟩ : Outcome) := by
          simpa [stepTask, hsk] using ho
        rcases ho' with h' | h'
        · exact h2 o h' hid
        · simp [h']
      · intro p hp hid
        have hp' : p ∈ st.calls ∨ p = (t, 0) := by
          simpa [stepTask, hsk] using hp
        rcases hp' with h' | h'
        · exact h3 p h' hid
        · simp [h']
    · apply ih _ x d
      · rw [show (stepTask env st t).cache = (save_html env st.cache t).cache from rfl]
        rw [save_html_cache_other env st.cache t x (fun hh => hxt hh.symm)]
        exact h1
      · intro o ho hid
        have ho' : o ∈ st.outcomes ∨ o = (save_html env st.cache t).outcome := by
          simpa [stepTask] using ho
        rcases ho' with h' | h'
        · exact h2 o h' hid
        · exfalso
          apply hxt
          rw [← hid, h', save_html_outcome_id]
      · intro p hp hid
        have hp' : p ∈ st.calls ∨ p = (t, (save_html env st.cache t).fetchCalls) := by
          simpa [stepTask] using hp
        rcases hp' with h' | h'
        · exact h3 p h' hid
        · exfalso
          apply hxt
          rw [← hid, h']

theorem save_html_log_length (env : FetchEnv) (c : Cache) (t : String) :
    (save_html env c t).log.length =
      (if logsLine (save_html env c t).outcome then 1 else 0) := by
  unfold save_html
  split
  · rfl
  · split
    · rfl
    · split <;> rfl

theorem runTasks_log_count (env : FetchEnv) (ts : List String) :
    ∀ st : RunState, st.log.length = st.outcomes.countP logsLine →
      (runTasks env ts st).log.length =
        (runTasks env ts st).outcomes.countP logsLine := by
  induction ts with
  | nil => intro st h; exact h
  | cons t ts ih =>
    intro st h
    rw [runTasks_cons]
    apply ih
    simp only [stepTask, List.length_append, List.countP_append, h,
      save_html_log_length]
    simp [List.countP_cons]

theorem runRetries_fst (f : Nat → FetchResult) (j j' : Nat → ℚ) :
    ∀ l : List Nat, (runRetries f j l).1 = (runRetries f j' l).1 := by
  intro l
  induction l with
  | nil => rfl
  | cons a rest ih =>
    unfold runRetries
    cases f a <;> simp [ih]

theorem save_html_congr (env env' : FetchEnv) (c c' : Cache) (t : String)
    (hl : lookupDoc c t = lookupDoc c' t)
    (hf : env.fetch t = env'.fetch t)
    (hs : env.storeErr t = env'.storeErr t) :
    (save_html env c t).outcome = (save_html env' c' t).outcome ∧
    (∀ y, lookupDoc c y = lookupDoc c' y →
      lookupDoc (save_html env c t).cache y =
        lookupDoc (save_html env' c' t).cache y) := by
  by_cases hc : (lookupDoc c t).isSome = true
  · have hc' : (lookupDoc c' t).isSome = true := by rw [← hl]; exact hc
    rw [save_html_skip env c t hc, save_html_skip env' c' t hc']
    exact ⟨rfl, fun y hy => hy⟩
  · have hc' : ¬(lookupDoc c' t).isSome = true := by rw [← hl]; exact hc
    rcases hr1 : runRetries (env.fetch t) (env.jitter t) (List.range 5) with ⟨o, n, sl⟩
    rcases hr2 : runRetries (env'.fetch t) (env'.jitter t) (List.range 5) with ⟨o', n', sl'⟩
    have ho : o = o' := by
      have hr1' := hr1
      rw [hf] at hr1'
      have h0 := runRetries_fst (env'.fetch t) (env.jitter t) (env'.jitter t) (List.range 5)
      rw [hr1', hr2] at h0
      exact h0
    subst ho
    unfold save_html
    rw [if_neg hc, if_neg hc', hr1, hr2]
    cases o with
    | none => exact ⟨rfl, fun y hy => hy⟩
    | some body =>
      rw [hs]
      cases hse : env'.storeErr t with
      | ok =>
        refine ⟨rfl, fun y hy => ?_⟩
        by_cases hyt : y = t
        · simp [lookupDoc, hyt]
        · simp [lookupDoc, hyt, hy]
      | failBeforeOpen e => exact ⟨rfl, fun y hy => hy⟩
      | failDuringWrite e w =>
        refine ⟨rfl, fun y hy => ?_⟩
        by_cases hyt : y = t
        · simp [lookupDoc, hyt]
        · simp [lookupDoc, hyt, hy]

theorem runTasks_agree (env env' : FetchEnv) (x : String)
    (ha : envAgreeExcept env env' x) (ts : List String) :
    ∀ st st' : RunState,
      (∀ y, y ≠ x → lookupDoc st.cache y = lookupDoc st'.cache y) →
      st.outcomes.filter (fun o => o.id != x) =
        st'.outcomes.filter (fun o => o.id != x) →
      (runTasks env ts st).outcomes.filter (fun o => o.id != x) =
        (runTasks env' ts st').outcomes.filter (fun o => o.id != x) := by
  induction ts with
  | nil => intro st st' _ h2; exact h2
  | cons t ts ih =>
    intro st st' h1 h2
    rw [runTasks_cons, runTasks_cons]
    by_cases hxt : t = x
    · subst hxt
      apply ih
      · intro y hy
        rw [show (stepTask env st t).cache = (save_html env st.cache t).cache from rfl,
          show (stepTask env' st' t).cache = (save_html env' st'.cache t).cache from rfl,
          save_html_cache_other env st.cache t y hy,
          save_html_cache_other env' st'.cache t y hy]
        exact h1 y hy
      · have e1 : ((save_html env st.cache t).outcome.id != t) = false := by
          simp [save_html_outcome_id]
        have e2 : ((save_html env' st'.cache t).outcome.id != t) = false := by
          simp [save_html_outcome_id]
        simp only [stepTask, List.filter_append, List.filter_cons, e1, e2]
        simpa using h2
    · have hcg := save_html_congr env env' st.cache st'.cache t
        (h1 t hxt) (ha t hxt).1 (ha t hxt).2
      apply ih
      · intro y hy
        rw [show (stepTask env st t).cache = (save_html env st.cache t).cache from rfl,
          show (stepTask env' st' t).cache = (save_html env' st'.cache t).cache from rfl]
        exact hcg.2 y (h1 y hy)
      · simp only [stepTask, List.filter_append, hcg.1, h2]

/-! ## Facts about discovery -/

theorem mem_insertId (oid x : String) (s : List String) :
    x ∈ insertId oid s ↔ x = oid ∨ x ∈ s := by
  unfold insertId
  split
  · next hmem =>
      constructor
      · exact Or.inr
      · rintro (rfl | h)
        · exact hmem
        · exact h
  · simp [List.mem_cons]

theorem nodup_insertId (oid : String) (s : List String) (h : s.Nodup) :
    (insertId oid s).Nodup := by
  unfold insertId
  split
  · exact h
  · next hn => exact List.nodup_cons.mpr ⟨hn, h⟩

theorem mem_addAnchors (anchors : List (Option String)) :
    ∀ (acc : List String) (x : String),
      x ∈ addAnchors acc anchors ↔ x ∈ acc ∨ some x ∈ anchors := by
  induction anchors with
  | nil => intro acc x; simp [addAnchors]
  | cons a rest ih =>
    intro acc x
    cases a with
    | none =>
      rw [show addAnchors acc (none :: rest) = addAnchors acc rest from rfl, ih]
      simp
    | some oid =>
      rw [show addAnchors acc (some oid :: rest) = addAnchors (insertId oid acc) rest
          from rfl, ih, mem_insertId]
      simp only [List.mem_cons, Option.some.injEq]
      tauto

theorem nodup_addAnchors (anchors : List (Option String)) :
    ∀ acc : List String, acc.Nodup → (addAnchors acc anchors).Nodup := by
  induction anchors with
  | nil => intro acc h; exact h
  | cons a rest ih =>
    intro acc h
    cases a with
    | none => exact ih acc h
    | some oid => exact ih (insertId oid acc) (nodup_insertId oid acc h)

theorem pageStep_error (f : Nat → PageResult) (acc : List String) (p : Nat)
    (e : String) (hf : f p = .error e) : pageStep f acc p = acc := by
  simp [pageStep, hf]

theorem pageStep_ok (f : Nat → PageResult) (acc : List String) (p : Nat)
    (anchors : List (Option String)) (hf : f p = .ok anchors) :
    pageStep f acc p = addAnchors acc anchors := by
  simp [pageStep, hf]

theorem mem_discoveredFold (f : Nat → PageResult) :
    ∀ (ps : List Nat) (acc : List String) (x : String),
      x ∈ ps.foldl (pageStep f) acc ↔
        x ∈ acc ∨ ∃ p ∈ ps, ∃ anchors, f p = .ok anchors ∧ some x ∈ anchors := by
  intro ps
  induction ps with
  | nil => intro acc x; simp
  | cons p ps ih =>
    intro acc x
    rw [List.foldl_cons, ih]
    cases hf : f p with
    | error e =>
      rw [pageStep_error f acc p e hf]
      constructor
      · rintro (h | ⟨q, hq, ans, hans, hx⟩)
        · exact Or.inl h
        · exact Or.inr ⟨q, by simp [hq], ans, hans, hx⟩
      · rintro (h | ⟨q, hq, ans, hans, hx⟩)
        · exact Or.inl h
        · rcases List.mem_cons.mp hq with rfl | hq'
          · rw [hf] at hans
            cases hans
          · exact Or.inr ⟨q, hq', ans, hans, hx⟩
    | ok anchors =>
      rw [pageStep_ok f acc p anchors hf]
      constructor
      · rintro (h | ⟨q, hq, ans, hans, hx⟩)
        · rcases (mem_addAnchors anchors acc x).mp h with h' | h'
          · exact Or.inl h'
          · exact Or.inr ⟨p, by simp, anchors, hf, h'⟩
        · exact Or.inr ⟨q, by simp [hq], ans, hans, hx⟩
      · rintro (h | ⟨q, hq, ans, hans, hx⟩)
        · exact Or.inl ((mem_addAnchors anchors acc x).mpr (Or.inl h))
        · rcases List.mem_cons.mp hq with rfl | hq'
          · rw [hf] at hans
            cases hans
            exact Or.inl ((mem_addAnchors anchors acc x).mpr (Or.inr hx))
          · exact Or.inr ⟨q, hq', ans, hans, hx⟩

theorem nodup_discoveredIds (f : Nat → PageResult) (pages : Nat) :
    (discoveredIds f pages).Nodup := by
  unfold discoveredIds
  generalize List.range' 1 pages = ps
  have h : ∀ (ps : List Nat) (acc : List String), acc.Nodup →
      (ps.foldl (pageStep f) acc).Nodup := by
    intro ps
    induction ps with
    | nil => intro acc h; exact h
    | cons p ps ih =>
      intro acc hacc
      rw [List.foldl_cons]
      apply ih
      cases hf : f p with
      | error e =>
        rw [pageStep_error f acc p e hf]
        exact hacc
      | ok anchors =>
        rw [pageStep_ok f acc p anchors hf]
        exact nodup_addAnchors anchors acc hacc
  exact h ps [] List.nodup_nil

theorem scrape_property_links_nodup (f : Nat → PageResult) (pages : Nat) :
    (scrape_property_links f pages).Nodup := by
  unfold scrape_property_links
  exact ((List.perm_insertionSort strLe (discoveredIds f pages)).nodup_iff).mpr
    (nodup_discoveredIds f pages)

/-! ## Facts about the price-variant discovery -/

theorem priceDivStep_none (a : List Listing) (d : PriceAnchor)
    (hd : d.objectid = none) : priceDivStep a d = a := by
  simp [priceDivStep, hd]

theorem priceDivStep_some (a : List Listing) (d : PriceAnchor) (oid : String)
    (hd : d.objectid = some oid) :
    priceDivStep a d = a ++ [⟨oid, BASE_URL ++ oid, cleanPrice d.pricetag⟩] := by
  simp [priceDivStep, hd]

theorem priceDivFold_map (divs : List PriceAnchor) :
    ∀ acc : List Listing,
      (divs.foldl priceDivStep acc).map Listing.object_id =
        acc.map Listing.object_id ++ divs.filterMap PriceAnchor.objectid := by
  induction divs with
  | nil => intro acc; simp
  | cons d ds ih =>
    intro acc
    rw [List.foldl_cons]
    cases hd : d.objectid with
    | none => rw [priceDivStep_none acc d hd, ih, List.filterMap_cons, hd]
    | some oid =>
      rw [priceDivStep_some acc d oid hd, ih, List.filterMap_cons, hd]
      simp

theorem pricePageFold_map (g : Nat → Except String (List PriceAnchor)) :
    ∀ (ps : List Nat) (acc : List Listing),
      (ps.foldl (pricePageStep g) acc).map Listing.object_id =
        acc.map Listing.object_id ++ ps.flatMap (pageOccIds g) := by
  intro ps
  induction ps with
  | nil => intro acc; simp
  | cons p ps ih =>
    intro acc
    rw [List.foldl_cons, ih]
    cases hg : g p with
    | error e =>
      rw [show pricePageStep g acc p = acc by simp [pricePageStep, hg]]
      simp [List.flatMap_cons, pageOccIds, hg]
    | ok divs =>
      rw [show pricePageStep g acc p = divs.foldl priceDivStep acc by
        simp [pricePageStep, hg]]
      rw [priceDivFold_map divs acc]
      simp [List.flatMap_cons, pageOccIds, hg]

theorem sum_map_zero (l : List String) : (l.map fun _ => 0).sum = 0 := by
  induction l with
  | nil => rfl
  | cons a rest ih => simp [ih]

/-! ## The claims -/

/-- C1 (counterexample): for the catalog `{A, B, C}` with `A` cached, `B`
succeeding and `C` failing all attempts, the outcomes are Skipped,
Success and Failed, but the outcome log has only 2 lines, not 3: the
`Already saved` path of `save_html` returns before `log_result` is
called, so a Skipped item appends no log line. -/
theorem C1_counterexample :
    ((download_with_eta envBC cacheA ["A", "B", "C"]).state.outcomes.map
        Outcome.status = [.skipped, .success, .failed]) ∧
    (download_with_eta envBC cacheA ["A", "B", "C"]).state.log.length = 2 ∧
    ¬((download_with_eta envBC cacheA ["A", "B", "C"]).state.log.length = 3) := by
  decide

/-- C1 (amended): every Success and Failed outcome appends exactly one
line to the outcome log, while a Skipped outcome appends none, so after
any run the log length is the number of non-Skipped outcomes. -/
theorem C1_log_lines (env : FetchEnv) (cache : Cache) (ids : List String) :
    (download_with_eta env cache ids).state.log.length =
      (download_with_eta env cache ids).state.outcomes.countP logsLine :=
  runTasks_log_count env ids ⟨cache, [], [], []⟩ rfl

/-- C2 (counterexample): an already-cached item is nevertheless submitted
to the worker pool — `download_with_eta` submits every id, so the task
list for the one-item catalog `[A]` with `A` cached is `[A]`, not `[]`;
the skip (0 fetch calls) happens only inside the worker. -/
theorem C2_counterexample :
    (lookupDoc cacheA "A").isSome = true ∧
    (download_with_eta envErr cacheA ["A"]).tasks = ["A"] ∧
    (download_with_eta envErr cacheA ["A"]).state.calls = [("A", 0)] := by
  decide

/-- C2 (amended): the cache-existence check runs inside the worker as the
first step of `save_html`, after the item was submitted to the pool: a
cached item appears in the submitted task list (it consumes a worker
slot) but every outcome reported for it is Skipped and every execution
of it makes 0 network calls. -/
theorem C2_skip_inside_worker (env : FetchEnv) (c : Cache) (ids : List String)
    (id d : String) (hc : lookupDoc c id = some d) (hm : id ∈ ids) :
    id ∈ (download_with_eta env c ids).tasks ∧
    (∀ o ∈ (download_with_eta env c ids).state.outcomes,
      o.id = id → o.status = .skipped) ∧
    (∀ p ∈ (download_with_eta env c ids).state.calls, p.1 = id → p.2 = 0) := by
  have h := runTasks_cached_skip env ids ⟨c, [], [], []⟩ id d hc
    (by simp) (by simp)
  exact ⟨hm, h.1, h.2⟩

/-- C2 witness: the cached id `A` is in the submitted task list. -/
theorem C2_witness :
    "A" ∈ (download_with_eta envErr cacheA ["A", "B"]).tasks :=
  (C2_skip_inside_worker envErr cacheA ["A", "B"] "A" "docA" (by decide)
    (by decide)).1

/-- C3 (counterexample): the price-aware discoverer does not deduplicate:
two listing pages both mentioning object `X` yield a catalog whose id
column is `[X, X]` — two ItemRecords share an id. -/
theorem C3_counterexample :
    ((scrape_property_links_price pricePages 2).map Listing.object_id =
      ["X", "X"]) ∧
    ¬((scrape_property_links_price pricePages 2).map Listing.object_id).Nodup := by
  decide

/-- C3 (amended): the id-only discoverer deduplicates (no two entries of
its catalog share an id), while the price-aware discoverer appends one
record per discovered occurrence: its catalog's id column is exactly the
page-by-page concatenation of the ids found on the successful pages,
with no deduplication. -/
theorem C3_dedup_only_id_variant (f : Nat → PageResult)
    (g : Nat → Except String (List PriceAnchor)) (pages : Nat) :
    (scrape_property_links f pages).Nodup ∧
    (scrape_property_links_price g pages).map Listing.object_id =
      (List.range' 1 pages).flatMap (pageOccIds g) := by
  constructor
  · exact scrape_property_links_nodup f pages
  · have h := pricePageFold_map g (List.range' 1 pages) []
    simpa using h

/-- C4 (counterexample): the price-variant scheduler submits one task per
catalog entry, so for a catalog with the uncached id `X` listed twice,
two fetch tasks are scheduled for `X` and two full 5-attempt fetch
sequences occur for it in the same run. -/
theorem C4_counterexample :
    lookupDoc [] "X" = none ∧
    (download_with_eta_price envErr [] dupListings).tasks.count "X" = 2 ∧
    (download_with_eta_price envErr [] dupListings).state.calls =
      [("X", 5), ("X", 5)] := by
  decide

/-- C4 (amended): in the id-only pipeline the catalog is deduplicated and
the scheduler runs `save_html` exactly once per catalog entry, so each
discovered id has exactly one execution (hence at most one fetch attempt
sequence) per run; the price-aware pipeline, whose catalog can repeat an
id, submits one task per entry instead. -/
theorem C4_once_per_id (env : FetchEnv) (c : Cache) (f : Nat → PageResult)
    (pages : Nat) :
    ((download_with_eta env c (scrape_property_links f pages)).state.calls.map
        Prod.fst = scrape_property_links f pages) ∧
    (scrape_property_links f pages).Nodup := by
  constructor
  · have h := runTasks_calls_fst env (scrape_property_links f pages)
      ⟨c, [], [], []⟩
    simpa using h
  · exact scrape_property_links_nodup f pages

/-- C5 (counterexample): when every attempt for `X` fails with the error
message `boom`, the Failed outcome carries the fixed message
`Failed after retries`, not the last error message `boom` (the
per-attempt errors are only printed). -/
theorem C5_counterexample :
    envErr.fetch "X" 4 = .err "boom" ∧
    (save_html envErr [] "X").outcome = ⟨"X", .failed, "Failed after retries"⟩ ∧
    ("Failed after retries" : String) ≠ "boom" := by
  decide

/-- C5 (amended): for an uncached item whose 5 fetch attempts all fail,
`save_html` emits exactly one Failed outcome with the fixed message
`Failed after retries`, appends exactly one ERROR log line, makes exactly
5 network calls with backoff sleeps `2 ^ attempt + jitter` after each
failed attempt, leaves the cache unchanged, and never raises; moreover
the other items of a run are unaffected: changing the environment's
behaviour on this id alone leaves every other item's outcome unchanged. -/
theorem C5_exhaustion (env : FetchEnv) (c : Cache) (id : String)
    (hc : lookupDoc c id = none)
    (hf : ∀ k, k < 5 → (env.fetch id k).isOk = false) :
    (save_html env c id).outcome = ⟨id, .failed, "Failed after retries"⟩ ∧
    (save_html env c id).log = [log_result id false "Failed after retries"] ∧
    (save_html env c id).fetchCalls = 5 ∧
    (save_html env c id).cache = c ∧
    (save_html env c id).sleeps =
      (List.range 5).map (fun k => (2 : ℚ) ^ k + env.jitter id k) ∧
    (∀ env', envAgreeExcept env env' id → ∀ (c₀ : Cache) (ids : List String),
      (download_with_eta env c₀ ids).state.outcomes.filter
          (fun o => o.id != id) =
        (download_with_eta env' c₀ ids).state.outcomes.filter
          (fun o => o.id != id)) := by
  have hr := runRetries_all_err (env.fetch id) (env.jitter id) (List.range 5)
    (fun a ha => hf a (List.mem_range.mp ha))
  have hsv : save_html env c id =
      ⟨"Failed after retries: " ++ id, c,
        [log_result id false "Failed after retries"],
        ⟨id, .failed, "Failed after retries"⟩, (List.range 5).length,
        (List.range 5).map fun a => (2 : ℚ) ^ a + env.jitter id a⟩ := by
    unfold save_html
    rw [if_neg (by simp [hc]), hr]
  rw [hsv]
  refine ⟨rfl, rfl, by simp, rfl, rfl, ?_⟩
  intro env' hag c₀ ids
  exact runTasks_agree env env' id hag ids ⟨c₀, [], [], []⟩ ⟨c₀, [], [], []⟩
    (fun y _ => rfl) rfl

/-- C5 witness: the exhaustion contract evaluated at a concrete
environment where every attempt fails. -/
theorem C5_witness :
    (save_html envErr [] "X").outcome = ⟨"X", .failed, "Failed after retries"⟩ ∧
    (save_html envErr [] "X").fetchCalls = 5 ∧
    (save_html envErr [] "X").cache = [] := by
  have h := C5_exhaustion envErr [] "X" rfl (by decide)
  exact ⟨h.1, h.2.2.1, h.2.2.2.1⟩

/-- C6: if the first run reports no Failed outcome, every item of the set
ends up cached, so re-running the scheduler on the same item set over the
resulting cache makes zero network calls and reports every item as
Skipped. -/
theorem C6_idempotent (env env' : FetchEnv) (c : Cache) (ids : List String)
    (h : ∀ o ∈ (download_with_eta env c ids).state.outcomes,
      o.status ≠ .failed) :
    (∀ o ∈ (download_with_eta env'
        (download_with_eta env c ids).state.cache ids).state.outcomes,
      o.status = .skipped) ∧
    ((download_with_eta env'
        (download_with_eta env c ids).state.cache ids).state.calls.map
      Prod.snd).sum = 0 := by
  have hcached : ∀ t ∈ ids,
      (lookupDoc (download_with_eta env c ids).state.cache t).isSome = true :=
    runTasks_no_failed_cached env ids ⟨c, [], [], []⟩ h
  have hstate : (download_with_eta env'
      (download_with_eta env c ids).state.cache ids).state =
      ⟨(download_with_eta env c ids).state.cache, [],
        ids.map (fun t => ⟨t, Status.skipped, ""⟩),
        ids.map (fun t => (t, 0))⟩ := by
    have hall := runTasks_all_cached env' ids
      ⟨(download_with_eta env c ids).state.cache, [], [], []⟩ hcached
    simpa using hall
  rw [hstate]
  constructor
  · intro o ho
    simp only [List.mem_map] at ho
    rcases ho with ⟨t, _, rfl⟩
    rfl
  · simp [List.map_map, Function.comp_def, sum_map_zero]

/-- C6 witness: a two-item run whose fetches all succeed, re-run over the
cache it produced. -/
theorem C6_witness :
    ((download_with_eta envOk
        (download_with_eta envOk [] ["A", "B"]).state.cache
        ["A", "B"]).state.calls.map Prod.snd).sum = 0 :=
  (C6_idempotent envOk envOk [] ["A", "B"] (by decide)).2

/-- C7: discovery is total and an id is returned iff some page in
`1..pages` fetched successfully and contained an anchor carrying it: a
failed page only removes its own contribution and never aborts the
run. -/
theorem C7_discovery_union (f : Nat → PageResult) (pages : Nat) (x : String) :
    x ∈ scrape_property_links f pages ↔
      ∃ p ∈ List.range' 1 pages, ∃ anchors,
        f p = .ok anchors ∧ some x ∈ anchors := by
  unfold scrape_property_links
  rw [(List.perm_insertionSort strLe (discoveredIds f pages)).mem_iff]
  unfold discoveredIds
  rw [mem_discoveredFold f (List.range' 1 pages) [] x]
  simp

/-- C8: the cache is write-once per key: a document present before a run
is still present, unchanged, after any run (`save_html` returns before
any write when the file exists, and no delete operation exists), and
every outcome the run reports for that id is Skipped. -/
theorem C8_write_once (env : FetchEnv) (c : Cache) (ids : List String)
    (x d : String) (h : lookupDoc c x = some d) :
    lookupDoc (download_with_eta env c ids).state.cache x = some d ∧
    (∀ o ∈ (download_with_eta env c ids).state.outcomes,
      o.id = x → o.status = .skipped) := by
  constructor
  · exact runTasks_preserves env ids ⟨c, [], [], []⟩ x d h
  · exact (runTasks_cached_skip env ids ⟨c, [], [], []⟩ x d h
      (by simp) (by simp)).1

/-- C8 witness: the document cached for `A` survives a run unchanged. -/
theorem C8_witness :
    lookupDoc (download_with_eta envOk cacheA ["A", "C"]).state.cache "A" =
      some "docA" :=
  (C8_write_once envOk cacheA ["A", "C"] "A" "docA" (by decide)).1

/-- C9: the id-only discoverer returns a duplicate-free list sorted
ascending in the lexicographic string order, and the output is determined
by the set of discovered ids alone: any two discoveries collecting the
same ids (in any page order) return the same list. -/
theorem C9_sorted_deterministic (f f' : Nat → PageResult)
    (pages pages' : Nat)
    (h : (discoveredIds f pages).Perm (discoveredIds f' pages')) :
    List.Sorted strLe (scrape_property_links f pages) ∧
    (scrape_property_links f pages).Nodup ∧
    scrape_property_links f pages = scrape_property_links f' pages' := by
  unfold scrape_property_links
  refine ⟨List.sorted_insertionSort strLe _,
    by
      have := scrape_property_links_nodup f pages
      unfold scrape_property_links at this
      exact this, ?_⟩
  exact List.eq_of_perm_of_sorted
    ((List.perm_insertionSort strLe _).trans
      (h.trans (List.perm_insertionSort strLe _).symm))
    (List.sorted_insertionSort strLe _)
    (List.sorted_insertionSort strLe _)

/-- C9 witness: two discoveries yielding the ids `a1 b1 c1` in different
page orders produce the same sorted, duplicate-free output. -/
theorem C9_witness :
    List.Sorted strLe (scrape_property_links pagesA 3) ∧
    (scrape_property_links pagesA 3).Nodup ∧
    scrape_property_links pagesA 3 = scrape_property_links pagesB 2 :=
  C9_sorted_deterministic pagesA pagesB 3 2 (by decide)

/-- C10 (counterexample): a storage error during the write leaves a
partial cached document: with the fetch returning `fullbody` and the
write running out of disk space after 4 characters, `save_html` reports
Failed for the uncached id `X`, yet the cache afterwards holds the
partial document `full` for `X` — the cache state is not unchanged on
error, because `open(file_path, "w")` created the file before `f.write`
raised. -/
theorem C10_counterexample :
    lookupDoc [] "X" = none ∧
    (save_html envDiskFull [] "X").outcome.status = .failed ∧
    lookupDoc (save_html envDiskFull [] "X").cache "X" = some "full" := by
  decide

/-- C10 (amended): for an uncached id, any write — complete or partial —
happens only after a successful fetch attempt: on a Failed outcome the
cache is either exactly unchanged (retry exhaustion, or a storage error
before `open` created the file) or holds the first `written` characters
of a successfully fetched body (a storage error during the write, which
leaves the partial file cached); on a Success outcome exactly the body
of a successful fetch attempt is cached. -/
theorem C10_store_semantics (env : FetchEnv) (c : Cache) (id : String)
    (hc : lookupDoc c id = none) :
    ((save_html env c id).outcome.status = .failed →
      (save_html env c id).cache = c ∨
      ∃ e w k b, env.storeErr id = .failDuringWrite e w ∧ k < 5 ∧
        env.fetch id k = .ok b ∧
        (save_html env c id).cache = (id, takeChars b w) :: c) ∧
    ((save_html env c id).outcome.status = .success →
      env.storeErr id = .ok ∧ ∃ k b, k < 5 ∧ env.fetch id k = .ok b ∧
        (save_html env c id).cache = (id, b) :: c) := by
  have hns : ¬(lookupDoc c id).isSome = true := by simp [hc]
  unfold save_html
  rw [if_neg hns]
  rcases hr : runRetries (env.fetch id) (env.jitter id) (List.range 5)
    with ⟨o, n, sl⟩
  cases o with
  | none => exact ⟨(fun _ => Or.inl rfl), fun h => nomatch h⟩
  | some b =>
    obtain ⟨k, hk, hfk⟩ := runRetries_ok (env.fetch id) (env.jitter id)
      (List.range 5) b n sl hr
    cases hse : env.storeErr id with
    | ok =>
      exact ⟨(fun h => nomatch h),
        fun _ => ⟨rfl, k, b, List.mem_range.mp hk, hfk, rfl⟩⟩
    | failBeforeOpen e =>
      exact ⟨(fun _ => Or.inl rfl), fun h => nomatch h⟩
    | failDuringWrite e w =>
      exact ⟨(fun _ => Or.inr ⟨e, w, k, b, rfl, List.mem_range.mp hk, hfk, rfl⟩),
        fun h => nomatch h⟩

/-- C10 witness: on retry exhaustion the Failed item's cache really is
unchanged. -/
theorem C10_witness :
    (save_html envErr [] "X").cache = [] := by
  rcases (C10_store_semantics envErr [] "X" rfl).1 (by decide) with h | h
  · exact h
  · obtain ⟨e, w, k, b, hse, hk, hfk, hcache⟩ := h
    exact nomatch hfk

end Scraper
